import Mathlib

/-!
Verification development for the `elmer-libnuma` translation family
(`src/launcher/src/gosmart/server/families/elmer_libnuma.py`).

The Python class `ElmerLibNumaFamily` is shallowly embedded here:
* parameter values after type conversion become the inductive `PValue`
  (rationals stand in for Python numbers; arithmetic in the translated
  code is `+`, `-`, `/`, which are exact on the inputs the code handles);
* the `lxml` element tree becomes the inductive `XML`, with attribute
  values kept symbolically in `AVal` (a stringified number is stored as
  the number itself — Python `str` is injective on the values involved,
  so nothing is lost by not rendering decimal text);
* exceptions (`TypeError` from `zip(None)`/`splitext(None)`/`lxml .set`,
  `IndexError` from `location[1]`, the explicit `raise`s) become an
  `Except Err` result.
-/

namespace ElmerLibNuma

/-- Converted parameter values, the results of `convert_parameter`.
`num` covers Python ints/floats (exact rational model), `str` strings,
`bool` booleans and `list` JSON-decoded arrays. -/
inductive PValue where
  | num (q : ℚ)
  | str (s : String)
  | bool (b : Bool)
  | list (l : List PValue)
deriving Repr

/-- Python truthiness of a converted value (`if value:`). -/
def truthy : PValue → Bool
  | .num q => decide (q ≠ 0)
  | .str s => !s.toList.isEmpty
  | .bool b => b
  | .list l => !l.isEmpty

/-- Python truthiness of an optional value (`None` is falsy). -/
def truthyOpt : Option PValue → Bool
  | none => false
  | some v => truthy v

/-- A stored parameter: the (already decoded) value together with its
optional type tag, mirroring the `(parameter, typ)` pairs held by the
Python stores. -/
abbrev PParam := PValue × Option String

/-- Modelled from the spec: `convert_parameter` lives in
`gosmart/server/parameters.py`, which is not under `src/`; per §4.1 of
the specification it decodes the raw value according to the type tag and
returns it. We therefore model stored values as already decoded and
conversion as returning the stored decoded value. -/
def convert_parameter (p : PParam) : PValue := p.1

/-- Attribute values of the output tree. `s` is a plain string, `n` a
stringified number (`str(v)`), `ns` a space-joined list of stringified
numbers (`" ".join(map(str, …))`), `py` the `str()` rendering of a
structured value and `json` its `json.dumps` rendering (both kept
symbolic: the claims never inspect their text). -/
inductive AVal where
  | s (v : String)
  | n (v : ℚ)
  | ns (v : List ℚ)
  | py (v : PValue)
  | json (v : PValue)
deriving Repr

/-- `str(value)` used as an attribute value: numbers and strings render
to themselves, anything else is kept as a symbolic `str()` image. -/
def pyStrA : PValue → AVal
  | .num q => .n q
  | .str s => .s s
  | v => .py v

/-- An `lxml` element: tag, attributes in insertion order, optional
text, children in insertion order. -/
inductive XML where
  | el (tag : String) (attrs : List (String × AVal)) (text : Option String)
       (children : List XML)

def XML.tagOf : XML → String
  | .el t _ _ _ => t

def XML.attrsOf : XML → List (String × AVal)
  | .el _ a _ _ => a

def XML.childrenOf : XML → List XML
  | .el _ _ _ c => c

/-- First child with the given tag, as `lxml`'s `find`. -/
def findTag (tag : String) : List XML → Option XML
  | [] => none
  | c :: cs => if c.tagOf = tag then some c else findTag tag cs

/-- Substring test on character lists (Python's `needle in haystack`). -/
def listHasSub (nd : List Char) : List Char → Bool
  | [] => nd.isEmpty
  | c :: t => nd.isPrefixOf (c :: t) || listHasSub nd t

/-- Python's substring containment `nd in hay`. -/
def strIn (nd hay : String) : Bool := listHasSub nd.toList hay.toList

/-- Split a character list at its first `:`. -/
def splitFirstColon : List Char → Option (List Char × List Char)
  | [] => none
  | c :: t =>
    if c = ':' then some ([], t)
    else
      match splitFirstColon t with
      | none => none
      | some (pre, post) => some (c :: pre, post)

/-- Python's `s.split(':', 1)`: the part before the first `:` and,
when a `:` occurs, the remainder. -/
def splitColon1 (s : String) : String × Option String :=
  match splitFirstColon s.toList with
  | none => (s, none)
  | some (pre, post) => (String.mk pre, some (String.mk post))

/-- Concatenate strings with a separator (the `sep.join(…)` of the
translated code, written structurally). -/
def joinWith (sep : String) : List String → String
  | [] => ""
  | [x] => x
  | x :: xs => x ++ sep ++ joinWith sep xs

/-- `os.path.splitext(p)[1]`: the extension of the basename, including
its dot; leading dots of the basename never start an extension. -/
def splitextExt (p : String) : String :=
  let base := (p.toList.reverse.takeWhile (· ≠ '/')).reverse
  let stripped := base.dropWhile (· = '.')
  if stripped.contains '.' then
    String.mk ('.' :: (stripped.reverse.takeWhile (· ≠ '.')).reverse)
  else ""

/-- `os.path.join(a, b)` for the forms used by the translated code. -/
def pyPathJoin (a b : String) : String :=
  if b.toList.headD ' ' = '/' then b
  else if a.toList.getLastD ' ' = '/' || a.toList.isEmpty then a ++ b
  else a ++ "/" ++ b

/-- Decode a value as a numeric vector (a Python list of numbers). -/
def asVec : PValue → Option (List ℚ)
  | .list l => l.mapM (fun v => match v with | .num q => some q | _ => none)
  | _ => none

/-- `zip(*rows)`: transpose truncated to the shortest row (the empty
argument list gives the empty result, as `zip()` does). -/
def pyZipN (rows : List (List ℚ)) : List (List ℚ) :=
  match (rows.map List.length).min? with
  | none => []
  | some m => (List.range m).map (fun i => rows.map (fun r => (r.get? i).getD 0))

/-- Iterate a Python value for `zip` purposes: a string yields its
characters (each rendered by `str` to itself), a list its elements. -/
def pyIter : PValue → Option (List AVal)
  | .str s => some (s.toList.map (fun c => .s (String.mk [c])))
  | .list l => some (l.map pyStrA)
  | _ => none

/-- Association-list update with Python `dict` semantics: overwrite in
place when the key exists, append otherwise. -/
def assocSet {α : Type} (l : List (String × α)) (k : String) (v : α) :
    List (String × α) :=
  match l with
  | [] => [(k, v)]
  | (k', v') :: t => if k' = k then (k, v) :: t else (k', v') :: assocSet t k v

/-- Failures aborting a compilation.  `typeError` stands for Python
`TypeError`s (`zip(None)`, `splitext(None)`, `lxml` attribute values
that are `None` or not strings), `indexError` for `location[1]` on a
reference without `:`, `keyError` for a failed needle lookup,
`forbiddenOperation` for the denylist rejection at
`elmer_libnuma.py:276` (the source names the undefined
`RuntimeException` there, so Python in fact raises `NameError`; either
way the compilation aborts at that point), and `unknownPointSource` for
the `RuntimeError` at line 323. -/
inductive Err where
  | typeError
  | indexError
  | keyError
  | forbiddenOperation (result : String)
  | unknownPointSource (kind : String)
deriving Repr, DecidableEq

/-- Python's stable `sorted` on strings, modelled by stable insertion
(Python's sort is stable, and a stable sort's output is uniquely
determined by the ordering, so this is extensionally `sorted`). -/
def insertSorted (a : String) : List String → List String
  | [] => [a]
  | b :: t => if b ≤ a then b :: insertSorted a t else a :: b :: t

/-- `sorted(l)` for a list of strings. -/
def pySorted (l : List String) : List String :=
  l.foldl (fun acc a => insertSorted a acc) []

/-- A needle descriptor as stored in `self._needles`. -/
structure Needle where
  parameters : List (String × PParam)
  file : String
  cls : Option String
deriving Repr

/-- A region descriptor as stored in `self._regions` (the `input` field
holds the local target file name computed at load time). -/
structure Region where
  format : Option String
  meaning : Option String
  input : String
  groups : List String
deriving Repr, DecidableEq

/-- An algorithm definition: ordered argument names and the optional
content text. -/
structure AlgDef where
  arguments : List String
  content : Option String
deriving Repr, DecidableEq

/-- The family's state after `load_definition`. -/
structure State where
  needles : List (String × Needle)
  needle_order : List (Nat × String)
  regions : List (String × Region)
  regions_by_meaning : List (Option String × List Region)
  parameters : List (String × PParam)
  algorithms : List (String × AlgDef)
  definition : Option String
deriving Repr

/-- `get_parameter` over a parameter mapping: a lookup miss returns the
absent marker, a hit returns the converted value. -/
def get_parameter (params : List (String × PParam)) (key : String) :
    Option PValue :=
  (params.lookup key).map convert_parameter

/-- A needle lookup key: either an ordinal position (a Python `int`,
never a key of the string-keyed `_needles` dict) or a declared index. -/
inductive NKey where
  | ord (n : Nat)
  | idx (s : String)

/-- Resolve a needle key: a declared index directly, an ordinal through
`_needle_order`. -/
def resolveNeedle (s : State) : NKey → Option Needle
  | .idx i => s.needles.lookup i
  | .ord n => (s.needle_order.lookup n).bind (fun i => s.needles.lookup i)

/-- `get_needle_parameter`: a failed needle lookup is a fatal
`KeyError`; a missing parameter key is the absent marker. -/
def get_needle_parameter (s : State) (k : NKey) (key : String) :
    Except Err (Option PValue) :=
  match resolveNeedle s k with
  | none => .error .keyError
  | some nd => .ok (get_parameter nd.parameters key)

/-! ## The load step (`load_definition`, lines 78–121) -/

/-- A needle element of the input description. -/
structure NeedleIn where
  index : String
  cls : Option String
  file : String
  parameters : List (String × PParam)
deriving Repr

/-- A region element of the input description.  `groups` is the
JSON-decoded group list (the JSON decoding itself is standard-library
behaviour, modelled as already parsed); `input` is `None` when the
attribute is absent. -/
structure RegionIn where
  id : String
  name : Option String
  format : Option String
  input : Option String
  groups : List String
deriving Repr, DecidableEq

/-- The input description consumed by `load_definition`. -/
structure InputDef where
  definition : Option String
  needles : Option (List NeedleIn)
  regions : List RegionIn
  parameters : List (String × PParam)
  algorithms : List (String × AlgDef)
deriving Repr

/-- The `files_required` mapping: local name → source location. -/
abbrev Files := List (String × String)

/-- The needle loop of `load_definition` (lines 84–101): a
surface/zone file reference is rewritten to a local name derived from
the declared index and the original extension, and the original file is
registered as required input. -/
def loadNeedles : List NeedleIn → List (String × Needle) →
    List (Nat × String) → Files → Nat →
    Except Err (List (String × Needle) × List (Nat × String) × Files)
  | [], ns, ord, fs, _ => .ok (ns, ord, fs)
  | nd :: rest, ns, ord, fs, k =>
    let loc := splitColon1 nd.file
    if loc.1 = "surface" || loc.1 = "zone" then
      match loc.2 with
      | none => .error .indexError
      | some orig =>
        let target := nd.index ++ splitextExt orig
        let nfile := loc.1 ++ ":" ++ target
        loadNeedles rest (assocSet ns nd.index ⟨nd.parameters, nfile, nd.cls⟩)
          (ord ++ [(k, nd.index)])
          (assocSet fs (pyPathJoin "input" target) orig) (k + 1)
    else
      loadNeedles rest (assocSet ns nd.index ⟨nd.parameters, nd.file, nd.cls⟩)
        (ord ++ [(k, nd.index)]) fs (k + 1)

/-- Append a region to its meaning bucket. -/
def appendByMeaning (bm : List (Option String × List Region))
    (k : Option String) (reg : Region) : List (Option String × List Region) :=
  match bm with
  | [] => [(k, [reg])]
  | (k', l) :: t =>
    if k' = k then (k', l ++ [reg]) :: t else (k', l) :: appendByMeaning t k reg

/-- The region loop of `load_definition` (lines 103–117).  Note that
line 108 applies `os.path.splitext` to `region.get('input')`
unconditionally, so an absent `input` attribute (`None`) raises
`TypeError` before the region is stored. -/
def loadRegions : List RegionIn → List (String × Region) →
    List (Option String × List Region) → Files →
    Except Err (List (String × Region) × List (Option String × List Region) × Files)
  | [], rs, bm, fs => .ok (rs, bm, fs)
  | r :: rest, rs, bm, fs =>
    let bm1 := if (bm.lookup r.name).isSome then bm else bm ++ [(r.name, [])]
    match r.input with
    | none => .error .typeError
    | some inp =>
      let target := r.id ++ splitextExt inp
      let reg : Region := ⟨r.format, r.name, target, r.groups⟩
      let fs' := if (r.format = some "surface" || r.format = some "zone")
                    && !inp.isEmpty
                 then assocSet fs (pyPathJoin "input" target) inp else fs
      loadRegions rest (assocSet rs r.id reg) (appendByMeaning bm1 r.name reg) fs'

/-- `load_definition` (lines 78–121): populate the needle, region and
parameter stores from the input description, threading the
`files_required` registration. -/
def load_definition (inp : InputDef) (files0 : Files) :
    Except Err (State × Files) := do
  let (ns, ord, fs1) ← loadNeedles (inp.needles.getD []) [] [] files0 0
  let (rs, bm, fs2) ← loadRegions inp.regions [] [] fs1
  .ok ({ needles := ns, needle_order := ord, regions := rs,
         regions_by_meaning := bm, parameters := inp.parameters,
         algorithms := inp.algorithms, definition := inp.definition }, fs2)

/-! ## The compile step (`to_xml`, lines 123–346) -/

/-- Python `value == "lit"` on an optional parameter value: only equal
strings compare equal. -/
def eqStrV (v : Option PValue) (t : String) : Bool :=
  match v with
  | some (.str s) => s == t
  | _ => false

/-- Python `value is True` on an optional parameter value. -/
def isPyTrue (v : Option PValue) : Bool :=
  match v with
  | some (.bool b) => b
  | _ => false

/-- The denylist of lines 29–47 (`_disallowed_functions`). -/
def disallowed_functions : List String :=
  ["funcdel", "sprintf", "sscanf", "eval", "source", "fread", "fscanf",
   "fgets", "fwrite", "fprintf", "fputs", "fopen", "freopen", "fclose",
   "save", "load", "format"]

/-- Centre derivation (lines 131–140).  When the policy is absent or
`first-needle` and needles exist, the first needle's tip; when it is
`centroid-of-tips` and needles exist, the per-axis
`sum(tips) / len(self._needles)` over `zip(*needle_tips)`; otherwise the
parameter value (or the absent marker) is left as it is.  Tip values
that are not numeric vectors make the `zip`/`sum` arithmetic raise
`TypeError`. -/
def deriveCentre (s : State) : Except Err (Option PValue) :=
  let centre := get_parameter s.parameters "CENTRE_LOCATION"
  if centre.isNone || eqStrV centre "first-needle" then
    if !s.needles.isEmpty then
      get_needle_parameter s (.ord 0) "NEEDLE_TIP_LOCATION"
    else .ok centre
  else if eqStrV centre "centroid-of-tips" then
    if !s.needles.isEmpty then do
      let tipVals ← (List.range s.needles.length).mapM
          (fun i => get_needle_parameter s (.ord i) "NEEDLE_TIP_LOCATION")
      match tipVals.mapM (fun o => o.bind asVec) with
      | none => .error .typeError
      | some vecs =>
        .ok (some (.list ((pyZipN vecs).map
            (fun col => .num (col.sum / (s.needles.length : ℚ))))))
    else .ok centre
  else .ok centre

/-- The centre element's attributes (lines 142–145):
`zip(('x','y','z'), centre_location)`, each value stringified.  `None`
is not iterable (`TypeError`); a string iterates its characters. -/
def centreAttrs : Option PValue → Except Err (List (String × AVal))
  | none => .error .typeError
  | some v =>
    match pyIter v with
    | none => .error .typeError
    | some items => .ok (List.zip ["x", "y", "z"] items)

/-- The needleaxis element (lines 147–153), present when needles exist:
per-axis `entry − tip` of the ordinal-0 needle. -/
def needleAxisNodes (s : State) : Except Err (List XML) :=
  if s.needles.isEmpty then .ok []
  else do
    let tip ← get_needle_parameter s (.ord 0) "NEEDLE_TIP_LOCATION"
    let entry ← get_needle_parameter s (.ord 0) "NEEDLE_ENTRY_LOCATION"
    match tip.bind asVec, entry.bind asVec with
    | some vt, some ve =>
      .ok [XML.el "needleaxis"
            ((List.zip ["x", "y", "z"] (List.zip vt ve)).map
              (fun p => (p.1, AVal.n (p.2.2 - p.2.1)))) none []]
    | _, _ => .error .typeError

/-- The optional simulationscaling element (lines 155–157). -/
def scalingNodes (s : State) : List XML :=
  match get_parameter s.parameters "SIMULATION_SCALING" with
  | none => []
  | some v => [XML.el "simulationscaling" [("ratio", pyStrA v)] none []]

/-- The regions section entries (lines 159–164): one element per stored
region, tagged by its format (an absent format is not a valid tag). -/
def regionNodes (s : State) : Except Err (List XML) :=
  s.regions.mapM (fun p =>
    match p.2.format with
    | none => .error .typeError
    | some f => .ok (XML.el f
        [("name", .s p.1), ("input", .s (pyPathJoin "input/" p.2.input)),
         ("groups", .s (joinWith "; " p.2.groups))] none []))

/-- The constants section (lines 166–174). -/
def constantNodes (s : State) : List XML :=
  s.parameters.map (fun p =>
    XML.el "parameter"
      ([("name", .s p.1), ("value", .json (convert_parameter p.2))] ++
        (match p.2.2 with | some t => [("type", .s t)] | none => []))
      none [])

/-- The needlelibrary attributes (lines 178–182). -/
def needlelibraryAttrs (s : State) : List (String × AVal) :=
  match get_parameter s.parameters "SETTING_SOLID_NEEDLES" with
  | none => []
  | some v => [("zones", .s (if v matches .bool true then "true" else "false"))]

/-- `name_needle_regions` (lines 176–182): set whenever the
solid-needles parameter is present. -/
def nameNeedleRegions (s : State) : Bool :=
  (get_parameter s.parameters "SETTING_SOLID_NEEDLES").isSome

/-- The mesher attributes (lines 184–187). -/
def mesherAttrs (s : State) : List (String × AVal) :=
  [("type", .s "CGAL")] ++
  (if isPyTrue (get_parameter s.parameters "SETTING_SOLID_NEEDLES")
      || isPyTrue (get_parameter s.parameters "SETTING_ZONE_BOUNDARIES")
   then [("zone_boundaries", .s "true")] else [])

/-- The optional axisymmetric inner templates (lines 189–200); `lxml`
rejects non-string attribute values. -/
def innerNodes (s : State) : Except Err (List XML) := do
  let n1 ← match get_parameter s.parameters "SETTING_AXISYMMETRIC_INNER" with
    | none => pure []
    | some (.str t) => pure [XML.el "inner"
        [("type", .s "axisymmetric"), ("template", .s t)] none []]
    | some _ => .error Err.typeError
  let n2 ← match get_parameter s.parameters "SETTING_AXISYMMETRIC_INNER_COARSE" with
    | none => pure []
    | some (.str t) => pure [XML.el "inner"
        [("type", .s "axisymmetric"), ("name", .s "coarse"), ("template", .s t)]
        none []]
    | some _ => .error Err.typeError
  pure (n1 ++ n2)

/-- The extent element (lines 202–207): the domain radius parameter, or
the fixed fallback `'50'`. -/
def extentNode (s : State) : XML :=
  match get_parameter s.parameters "SIMULATION_DOMAIN_RADIUS" with
  | some v => XML.el "extent" [("radius", pyStrA v)] none []
  | none => XML.el "extent" [("radius", .s "50")] none []

/-- Region classification for the mesher section (lines 211–217):
format `zone` → zone entry; else meaning `organ` → organ entry; else a
`vessels` or `bronchi` group → vessel entry; else nothing. -/
def classifyRegion (idx : String) (r : Region) : Option XML :=
  if r.format = some "zone" then
    some (XML.el "zone" [("region", .s idx)] none [])
  else if r.meaning = some "organ" then
    some (XML.el "organ" [("region", .s idx)] none [])
  else if r.groups.contains "vessels" || r.groups.contains "bronchi" then
    some (XML.el "vessel" [("region", .s idx)] none [])
  else none

/-- All mesher classification entries, in region insertion order. -/
def classificationNodes (s : State) : List XML :=
  s.regions.filterMap (fun p => classifyRegion p.1 p.2)

/-- The length-scale settings (lines 219–247): a preset chosen by the
truthiness of the high-resolution parameter, then positional updates
for each truthy override parameter. -/
def lengthscale_settings (s : State) : List (String × PValue) :=
  let base : List (String × PValue) :=
    if truthyOpt (get_parameter s.parameters "RESOLUTION_HIGH") then
      [("nearfield", .str "1.0"), ("farfield", .str "2.0"),
       ("zonefield", .str "1.0"), ("vessels", .str "far")]
    else
      [("nearfield", .str "2.0"), ("farfield", .str "5.0"),
       ("zonefield", .str "2.0"), ("vessels", .str "far")]
  let nearfield := get_parameter s.parameters "RESOLUTION_FIELD_NEAR"
  let farfield := get_parameter s.parameters "RESOLUTION_FIELD_FAR"
  let zonefield := get_parameter s.parameters "RESOLUTION_FIELD_ZONE"
  let l0 := match nearfield with
    | some v => if truthy v then base.set 0 ("nearfield", v) else base
    | none => base
  let l1 := match farfield with
    | some v => if truthy v then l0.set 1 ("farfield", v) else l0
    | none => l0
  let l2 := match zonefield with
    | some v => if truthy v then l1.set 2 ("zonefield", v) else l1
    | none => l1
  l2

/-- The needle-zone length-scale parameter (line 233). -/
def needlezonefield (s : State) : Option PValue :=
  get_parameter s.parameters "RESOLUTION_FIELD_NEEDLE_ZONE"

/-- The lengthscales attributes (lines 244–247): each setting
stringified, plus `needlezonefield` when that parameter is truthy. -/
def lengthscalesAttrs (s : State) : List (String × AVal) :=
  (lengthscale_settings s).map (fun p => (p.1, pyStrA p.2)) ++
  (match needlezonefield s with
   | some v => if truthy v then [("needlezonefield", pyStrA v)] else []
   | none => [])

/-- The lengthscales element. -/
def lengthscalesNode (s : State) : XML :=
  XML.el "lengthscales" (lengthscalesAttrs s) none []

/-- `"; ".join(value)`: joins a list of strings, or the characters of a
string; anything else raises `TypeError`. -/
def pyJoinSemi : PValue → Except Err String
  | .str s => .ok (joinWith "; " (s.toList.map (fun c => String.mk [c])))
  | .list l =>
    match l.mapM (fun v => match v with | .str t => some t | _ => none) with
    | some strs => .ok (joinWith "; " strs)
    | none => .error .typeError
  | _ => .error .typeError

/-- The solver variant element (lines 252–258): the definition text with
the `$SOURCES` marker appended (a `None` definition cannot be
concatenated), and the optional module list. -/
def variantNode (s : State) : Except Err XML :=
  match s.definition with
  | none => .error .typeError
  | some d =>
    match get_parameter s.parameters "ELMER_NUMA_MODULES" with
    | some m =>
      if truthy m then
        match pyJoinSemi m with
        | .ok joined =>
          .ok (XML.el "variant" [("modules", .s joined)]
                (some (d ++ "\n$SOURCES\n")) [])
        | .error e => .error e
      else .ok (XML.el "variant" [] (some (d ++ "\n$SOURCES\n")) [])
    | none => .ok (XML.el "variant" [] (some (d ++ "\n$SOURCES\n")) [])

/-- Whether an algorithm passes the denylist scan of lines 274–276: no
denylisted identifier occurs as a substring of the content text (`None`
normalised to the empty string) or of the result name. -/
def algClean (result : String) (d : AlgDef) : Bool :=
  disallowed_functions.all
    (fun fn => !(strIn fn (d.content.getD "") || strIn fn result))

/-- The element built for one algorithm (lines 262–273): result and
comma-joined arguments as attributes, the lexicographically sorted
argument list, and the content text. -/
def mkAlgorithmElem (result : String) (d : AlgDef) : XML :=
  XML.el "algorithm"
    [("result", .s result), ("arguments", .s (joinWith "," d.arguments))]
    none
    [XML.el "arguments" [] none
       ((pySorted d.arguments).map
         (fun a => XML.el "argument" [("name", .s a)] none [])),
     XML.el "content" [] (some (d.content.getD "")) []]

/-- The algorithms loop (lines 260–276): each algorithm is built and
then scanned; the first denylist match aborts the compilation. -/
def processAlgorithms : List (String × AlgDef) → Except Err (List XML)
  | [] => .ok []
  | (result, d) :: rest =>
    if algClean result d then do
      let tail ← processAlgorithms rest
      .ok (mkAlgorithmElem result d :: tail)
    else .error (.forbiddenOperation result)

/-- Python `enumerate` over a parameter value: a list yields its
elements, a string its characters; anything else raises `TypeError`. -/
def pyEnum : PValue → Option (List PValue)
  | .list l => some l
  | .str s => some (s.toList.map (fun c => .str (String.mk [c])))
  | _ => none

/-- The nodes the needle loop (lines 278–331) appends into earlier
sections: extra region entries, extra mesher entries, needle-library
placements, point-source blocks, and the library-needle counter `l`. -/
structure NeedleParts where
  regionsExtra : List XML
  mesherExtra : List XML
  libNeedles : List XML
  pointSources : List XML
  l : Nat

def emptyParts : NeedleParts := ⟨[], [], [], [], 0⟩

/-- One iteration of the needle loop (lines 279–330). -/
def processNeedle (s : State) (centreLoc : Option PValue)
    (nzf : Option PValue) (nameRegions : Bool) (acc : NeedleParts)
    (ix : String) (nd : Needle) : Except Err NeedleParts :=
  if nd.cls = some "solid-boundary" || nd.cls = some "boundary" then
    let loc := splitColon1 nd.file
    if loc.1 = "surface" || loc.1 = "zone" then
      match loc.2 with
      | none => .error .indexError
      | some path => do
        let regionNode := XML.el loc.1
          [("name", .s ix), ("input", .s (pyPathJoin "input/" path)),
           ("groups", .s "needles")] none []
        let meshAttrs ←
          if truthyOpt nzf && loc.1 = "zone" then
            match nzf with
            | some (.str t) =>
              .ok [("region", AVal.s ix), ("characteristic_length", AVal.s t)]
            | _ => .error Err.typeError
          else .ok [("region", AVal.s ix)]
        .ok { acc with
              regionsExtra := acc.regionsExtra ++ [regionNode],
              mesherExtra := acc.mesherExtra ++ [XML.el "needle" meshAttrs none []] }
    else do
      let lNew := acc.l + 1
      let nameAttrs := if nameRegions then [("name", AVal.s (toString lNew))] else []
      let idAttrs ← match loc.2 with
        | none => .error Err.indexError
        | some path => .ok (if loc.1 = "library"
            then [("id", AVal.s path)] else [("name", AVal.s path)])
      let tip ← get_needle_parameter s (.idx ix) "NEEDLE_TIP_LOCATION"
      let entry ← get_needle_parameter s (.idx ix) "NEEDLE_ENTRY_LOCATION"
      match tip.bind asVec, entry.bind asVec, centreLoc.bind asVec with
      | some vt, some ve, some vc =>
        let offset := AVal.ns ((vt.zip vc).map (fun p => p.2 - p.1))
        let axis := AVal.ns ((ve.zip vt).map (fun p => p.1 - p.2))
        let paramsNode := XML.el "parameters" [] none
          (nd.parameters.map (fun p =>
            XML.el "constant"
              [("name", .s p.1), ("value", pyStrA (convert_parameter p.2))]
              none []))
        .ok { acc with
              libNeedles := acc.libNeedles ++
                [XML.el "needle"
                  (nameAttrs ++ idAttrs ++ [("offset", offset), ("axis", axis)])
                  none [paramsNode]],
              l := lNew }
      | _, _, _ => .error Err.typeError
  else if nd.cls = some "point-sources" then
    let loc := splitColon1 nd.file
    if loc.1 = "library" then
      match loc.2 with
      | none => .error .indexError
      | some path => do
        let exts ← match get_parameter s.parameters "CONSTANT_NEEDLE_EXTENSIONS" with
          | none => .error Err.typeError
          | some v =>
            match pyEnum v with
            | none => .error Err.typeError
            | some items => .ok items
        let extNodes := exts.enum.map (fun p =>
          XML.el "extension"
            [("phase", .s (toString p.1)), ("length", pyStrA p.2)] none [])
        .ok { acc with
              pointSources := acc.pointSources ++
                [XML.el "pointsources" [("system", .s path)] none
                  [XML.el "extensions" [] none extNodes]] }
    else .error (.unknownPointSource loc.1)
  else .ok acc

/-- The needle loop over all stored needles, in insertion order. -/
def needleLoop (s : State) (centreLoc : Option PValue) (nzf : Option PValue)
    (nameRegions : Bool) : List (String × Needle) → NeedleParts →
    Except Err NeedleParts
  | [], acc => .ok acc
  | (ix, nd) :: rest, acc => do
    let acc' ← processNeedle s centreLoc nzf nameRegions acc ix nd
    needleLoop s centreLoc nzf nameRegions rest acc'

/-- The lesion element (lines 333–342): the field parameter is set
without stringification, so it must be present and a string. -/
def lesionNode (s : State) : Except Err XML := do
  let fieldAttr ← match get_parameter s.parameters "SETTING_LESION_FIELD" with
    | some (.str t) => .ok (AVal.s t)
    | some _ => .error Err.typeError
    | none => .error Err.typeError
  let upper := match get_parameter s.parameters "SETTING_LESION_THRESHOLD_UPPER" with
    | some v => [("threshold_upper", pyStrA v)]
    | none => []
  let lower := match get_parameter s.parameters "SETTING_LESION_THRESHOLD_LOWER" with
    | some v => [("threshold_lower", pyStrA v)]
    | none => []
  .ok (XML.el "lesion" ([("field", fieldAttr)] ++ upper ++ lower) none [])

/-- `to_xml` (lines 123–346): assemble the output document.  Section
contents that the needle loop extends (regions, needlelibrary, mesher,
elmer) receive their extra children at the end, exactly where the
Python code appends them. -/
def to_xml (s : State) : Except Err XML := do
  let centreLoc ← deriveCentre s
  let cAttrs ← centreAttrs centreLoc
  let axisNodes ← needleAxisNodes s
  let regNodes ← regionNodes s
  let inners ← innerNodes s
  let variant ← variantNode s
  let algEntries ← processAlgorithms s.algorithms
  let parts ← needleLoop s centreLoc (needlezonefield s) (nameNeedleRegions s)
      s.needles emptyParts
  let lesion ← lesionNode s
  .ok (XML.el "gosmart"
    [("name", .s "elmer_libnuma"), ("version", .s "1.0.1")] none
    [XML.el "geometry" [] none
       ([XML.el "centre" cAttrs none []] ++ axisNodes ++ scalingNodes s),
     XML.el "regions" [] none (regNodes ++ parts.regionsExtra),
     XML.el "constants" [] none (constantNodes s),
     XML.el "needlelibrary" (needlelibraryAttrs s) none parts.libNeedles,
     XML.el "mesher" (mesherAttrs s) none
       (inners ++ [extentNode s, XML.el "centre" [] none []]
         ++ classificationNodes s ++ [lengthscalesNode s] ++ parts.mesherExtra),
     XML.el "optimizer" [] none [],
     XML.el "elmergrid" [] none [],
     XML.el "elmer" [] none
       ([variant, XML.el "algorithms" [] none algEntries] ++ parts.pointSources),
     lesion])

/-- A full compilation on a fresh store instance: the load step followed
by the compile step, starting from an empty `files_required` mapping. -/
def runCompilation (inp : InputDef) : Except Err XML := do
  let (st, _) ← load_definition inp []
  to_xml st

/-! ## Helper lemmas -/

theorem bind_ok {α β : Type} {x : Except Err α} {f : α → Except Err β} {b : β}
    (h : x >>= f = .ok b) : ∃ a, x = .ok a ∧ f a = .ok b := by
  cases x with
  | error e => simp [Bind.bind, Except.bind] at h
  | ok a => exact ⟨a, rfl, h⟩

/-- Inversion of a successful compilation: every stage succeeded and the
document is the assembled tree. -/
theorem to_xml_ok_parts {s : State} {doc : XML} (h : to_xml s = .ok doc) :
    ∃ centreLoc cAttrs axisNodes regNodes inners variant algEntries parts lesion,
      deriveCentre s = .ok centreLoc ∧
      centreAttrs centreLoc = .ok cAttrs ∧
      needleAxisNodes s = .ok axisNodes ∧
      regionNodes s = .ok regNodes ∧
      innerNodes s = .ok inners ∧
      variantNode s = .ok variant ∧
      processAlgorithms s.algorithms = .ok algEntries ∧
      needleLoop s centreLoc (needlezonefield s) (nameNeedleRegions s)
        s.needles emptyParts = .ok parts ∧
      lesionNode s = .ok lesion ∧
      doc = XML.el "gosmart"
        [("name", .s "elmer_libnuma"), ("version", .s "1.0.1")] none
        [XML.el "geometry" [] none
           ([XML.el "centre" cAttrs none []] ++ axisNodes ++ scalingNodes s),
         XML.el "regions" [] none (regNodes ++ parts.regionsExtra),
         XML.el "constants" [] none (constantNodes s),
         XML.el "needlelibrary" (needlelibraryAttrs s) none parts.libNeedles,
         XML.el "mesher" (mesherAttrs s) none
           (inners ++ [extentNode s, XML.el "centre" [] none []]
             ++ classificationNodes s ++ [lengthscalesNode s] ++ parts.mesherExtra),
         XML.el "optimizer" [] none [],
         XML.el "elmergrid" [] none [],
         XML.el "elmer" [] none
           ([variant, XML.el "algorithms" [] none algEntries] ++ parts.pointSources),
         lesion] := by
  unfold to_xml at h
  obtain ⟨centreLoc, h1, h⟩ := bind_ok h
  obtain ⟨cAttrs, h2, h⟩ := bind_ok h
  obtain ⟨axisNodes, h3, h⟩ := bind_ok h
  obtain ⟨regNodes, h4, h⟩ := bind_ok h
  obtain ⟨inners, h5, h⟩ := bind_ok h
  obtain ⟨variant, h6, h⟩ := bind_ok h
  obtain ⟨algEntries, h7, h⟩ := bind_ok h
  obtain ⟨parts, h8, h⟩ := bind_ok h
  obtain ⟨lesion, h9, h⟩ := bind_ok h
  exact ⟨centreLoc, cAttrs, axisNodes, regNodes, inners, variant, algEntries,
    parts, lesion, h1, h2, h3, h4, h5, h6, h7, h8, h9,
    (Except.ok.injEq _ _ ▸ h).symm⟩

/-- A successful variant node is tagged `variant`. -/
theorem variantNode_tag {s : State} {v : XML} (h : variantNode s = .ok v) :
    v.tagOf = "variant" := by
  unfold variantNode at h
  split at h
  · exact absurd h (by simp)
  · split at h
    · split at h
      · split at h
        · cases h; rfl
        · exact absurd h (by simp)
      · cases h; rfl
    · cases h; rfl

/-- A clean algorithm list is emitted entirely, in order. -/
theorem processAlgorithms_ok_of_clean :
    ∀ {algs : List (String × AlgDef)},
    (∀ p ∈ algs, algClean p.1 p.2 = true) →
    processAlgorithms algs = .ok (algs.map (fun p => mkAlgorithmElem p.1 p.2))
  | [], _ => rfl
  | (result, d) :: rest, h => by
    have hc : algClean result d = true := h _ (List.mem_cons_self _ _)
    have ih := processAlgorithms_ok_of_clean
      (fun p hp => h p (List.mem_cons_of_mem _ hp))
    simp [processAlgorithms, hc, ih, Bind.bind, Except.bind]

/-- A successful algorithms loop implies every algorithm was clean and
the entries are exactly the per-algorithm elements, in order. -/
theorem processAlgorithms_ok_elim :
    ∀ {algs : List (String × AlgDef)} {l : List XML},
    processAlgorithms algs = .ok l →
    (∀ p ∈ algs, algClean p.1 p.2 = true) ∧
    l = algs.map (fun p => mkAlgorithmElem p.1 p.2)
  | [], l, h => by
    refine ⟨by simp, ?_⟩
    simpa [processAlgorithms] using h.symm
  | (result, d) :: rest, l, h => by
    by_cases hc : algClean result d = true
    · rw [processAlgorithms, if_pos hc] at h
      obtain ⟨tail, htail, h2⟩ := bind_ok h
      obtain ⟨ha, hb⟩ := processAlgorithms_ok_elim htail
      refine ⟨?_, ?_⟩
      · intro p hp
        rcases List.mem_cons.mp hp with h' | h'
        · subst h'; exact hc
        · exact ha p h'
      · cases h2
        simp [hb]
    · rw [processAlgorithms, if_neg hc] at h
      exact absurd h (by simp)

/-- A dirty algorithm anywhere in the list makes the loop abort with the
forbidden-operation failure. -/
theorem processAlgorithms_dirty :
    ∀ {algs : List (String × AlgDef)} {p : String × AlgDef},
    p ∈ algs → algClean p.1 p.2 = false →
    ∃ res, processAlgorithms algs = .error (.forbiddenOperation res)
  | [], p, hp, _ => absurd hp (List.not_mem_nil p)
  | (result, d) :: rest, p, hp, hdirty => by
    by_cases hc : algClean result d = true
    · rcases List.mem_cons.mp hp with h' | h'
      · exfalso; rw [h'] at hdirty; simp [hc] at hdirty
      · obtain ⟨res, hres⟩ := processAlgorithms_dirty h' hdirty
        refine ⟨res, ?_⟩
        rw [processAlgorithms, if_pos hc, hres]
        rfl
    · exact ⟨result, by rw [processAlgorithms, if_neg hc]⟩

/-- The algorithm entries of an output document: the children of the
`algorithms` child of the `elmer` section. -/
def algorithmEntries (doc : XML) : Option (List XML) :=
  match findTag "elmer" doc.childrenOf with
  | none => none
  | some e =>
    match findTag "algorithms" e.childrenOf with
    | none => none
    | some a => some a.childrenOf

/-- **C1**: the assembled document contains an entry for an algorithm
iff neither its content nor its result name contains a denylisted
identifier as a substring; if any algorithm is dirty, the compilation
aborts with the forbidden-operation failure (the `raise` at line 276)
and no output document is returned. -/
theorem algorithm_denylist_gate (s : State) :
    (∀ doc, to_xml s = .ok doc →
      algorithmEntries doc
        = some (s.algorithms.map (fun p => mkAlgorithmElem p.1 p.2)) ∧
      ∀ p ∈ s.algorithms,
        (mkAlgorithmElem p.1 p.2 ∈ (algorithmEntries doc).getD []
          ↔ algClean p.1 p.2 = true)) ∧
    ((∃ p ∈ s.algorithms, algClean p.1 p.2 = false) →
      (∃ res, processAlgorithms s.algorithms
        = Except.error (Err.forbiddenOperation res)) ∧
      ∀ doc, to_xml s ≠ .ok doc) := by
  constructor
  · intro doc hok
    obtain ⟨cl, cA, ax, rg, inn, var, alg, parts, les,
      h1, h2, h3, h4, h5, h6, h7, h8, h9, hdoc⟩ := to_xml_ok_parts hok
    obtain ⟨hclean, hentries⟩ := processAlgorithms_ok_elim h7
    have htag := variantNode_tag h6
    have hAE : algorithmEntries doc = some alg := by
      subst hdoc
      cases var with
      | el t a tx c =>
        simp only [XML.tagOf] at htag
        subst htag
        simp [algorithmEntries, findTag, XML.tagOf, XML.childrenOf]
    rw [hentries] at hAE
    refine ⟨hAE, fun p hp => ⟨fun _ => hclean p hp, fun _ => ?_⟩⟩
    rw [hAE]
    exact List.mem_map_of_mem _ hp
  · rintro ⟨p, hp, hdirty⟩
    obtain ⟨res, herr⟩ := processAlgorithms_dirty hp hdirty
    refine ⟨⟨res, herr⟩, fun doc hok => ?_⟩
    obtain ⟨cl, cA, ax, rg, inn, var, alg, parts, les,
      h1, h2, h3, h4, h5, h6, h7, h8, h9, hdoc⟩ := to_xml_ok_parts hok
    rw [herr] at h7
    exact absurd h7 (by simp)

/-- A representative clean algorithm. -/
def algOkC1 : AlgDef := ⟨["b_arg", "a_arg"], some "x + y"⟩

/-- A state that compiles successfully: no needles, an explicit centre
vector, the required lesion field, one clean algorithm. -/
def sOkC1 : State :=
  { needles := [], needle_order := [], regions := [], regions_by_meaning := [],
    parameters :=
      [("CENTRE_LOCATION", (.list [.num 1, .num 2, .num 3], some "array(float)")),
       ("SETTING_LESION_FIELD", (.str "dead", none))],
    algorithms := [("res1", algOkC1)],
    definition := some "BODY" }

/-- The same state with the algorithm's result name containing `fopen`. -/
def sBadC1 : State := { sOkC1 with algorithms := [("use_fopen", algOkC1)] }

/-- The document compiled from `sOkC1`. -/
def docOkC1 : XML :=
  match to_xml sOkC1 with
  | .ok d => d
  | .error _ => XML.el "" [] none []

theorem algorithm_denylist_gate_witness :
    (mkAlgorithmElem "res1" algOkC1 ∈ (algorithmEntries docOkC1).getD []
      ↔ algClean "res1" algOkC1 = true) ∧
    (∃ res, processAlgorithms sBadC1.algorithms
      = Except.error (Err.forbiddenOperation res)) := by
  constructor
  · exact ((algorithm_denylist_gate sOkC1).1 docOkC1 rfl).2 ("res1", algOkC1)
      (List.mem_singleton.mpr rfl)
  · exact ((algorithm_denylist_gate sBadC1).2
      ⟨("use_fopen", algOkC1), List.mem_singleton.mpr rfl, by decide⟩).1

theorem map_zip_sub_right (l1 l2 : List ℚ) :
    ((l1.zip l2).map fun p => p.2 - p.1)
      = List.zipWith (fun a b => b - a) l1 l2 := by
  induction l1 generalizing l2 with
  | nil => simp
  | cons a t ih => cases l2 <;> simp [ih]

theorem map_zip_sub_left (l1 l2 : List ℚ) :
    ((l1.zip l2).map fun p => p.1 - p.2)
      = List.zipWith (fun a b => a - b) l1 l2 := by
  induction l1 generalizing l2 with
  | nil => simp
  | cons a t ih => cases l2 <;> simp [ih]

/-- **C2** (amended): a boundary/solid-boundary needle whose file
reference is not a surface/zone mesh file is emitted as a
needle-library placement whose `offset` attribute is the per-axis
difference `centre − tip` (not `tip − centre`) and whose `axis`
attribute is the per-axis difference `entry − tip`. -/
theorem needle_library_offset_axis (s : State) (centreLoc nzf : Option PValue)
    (nameRegions : Bool) (acc : NeedleParts) (ix : String) (nd : Needle)
    (kind path : String) (tipO entryO : Option PValue) (vt ve vc : List ℚ)
    (hcls : nd.cls = some "solid-boundary" ∨ nd.cls = some "boundary")
    (hloc : splitColon1 nd.file = (kind, some path))
    (hks : kind ≠ "surface") (hkz : kind ≠ "zone")
    (htip : get_needle_parameter s (.idx ix) "NEEDLE_TIP_LOCATION" = .ok tipO)
    (hvt : tipO.bind asVec = some vt)
    (hentry : get_needle_parameter s (.idx ix) "NEEDLE_ENTRY_LOCATION" = .ok entryO)
    (hve : entryO.bind asVec = some ve)
    (hvc : centreLoc.bind asVec = some vc) :
    ∃ attrs,
      processNeedle s centreLoc nzf nameRegions acc ix nd =
        .ok { acc with
              libNeedles := acc.libNeedles ++ [XML.el "needle" attrs none
                [XML.el "parameters" [] none
                  (nd.parameters.map (fun p => XML.el "constant"
                    [("name", .s p.1), ("value", pyStrA (convert_parameter p.2))]
                    none []))]],
              l := acc.l + 1 } ∧
      attrs.lookup "offset" = some (.ns (List.zipWith (fun t c => c - t) vt vc)) ∧
      attrs.lookup "axis" = some (.ns (List.zipWith (fun e t => e - t) ve vt)) := by
  have hbool : (nd.cls = some "solid-boundary" || nd.cls = some "boundary") = true := by
    rcases hcls with h | h <;> simp [h]
  refine ⟨(if nameRegions then [("name", AVal.s (toString (acc.l + 1)))] else []) ++
    (if kind = "library" then [("id", AVal.s path)] else [("name", AVal.s path)]) ++
    [("offset", AVal.ns ((vt.zip vc).map fun p => p.2 - p.1)),
     ("axis", AVal.ns ((ve.zip vt).map fun p => p.1 - p.2))], ?_, ?_, ?_⟩
  · simp only [processNeedle, hbool, hloc, if_true]
    simp only [hks, hkz]
    simp only [htip, hentry, hvt, hve, hvc, Bind.bind, Except.bind]
    simp
  · cases nameRegions <;> by_cases hk : kind = "library" <;>
      simp [hk, List.lookup, map_zip_sub_right]
  · cases nameRegions <;> by_cases hk : kind = "library" <;>
      simp [hk, List.lookup, map_zip_sub_left]

/-- The needle of the C2 example: a boundary needle with a library
reference, tip `(1,0,0)`, entry `(2,0,0)`. -/
def ndC2 : Needle :=
  ⟨[("NEEDLE_TIP_LOCATION", (.list [.num 1, .num 0, .num 0], none)),
    ("NEEDLE_ENTRY_LOCATION", (.list [.num 2, .num 0, .num 0], none))],
   "library:np1", some "boundary"⟩

/-- A state with that needle and the explicit centre `(0,0,0)`. -/
def sC2 : State :=
  { needles := [("n1", ndC2)], needle_order := [(0, "n1")],
    regions := [], regions_by_meaning := [],
    parameters :=
      [("CENTRE_LOCATION", (.list [.num 0, .num 0, .num 0], some "array(float)")),
       ("SETTING_LESION_FIELD", (.str "dead", none))],
    algorithms := [], definition := some "BODY" }

/-- The document compiled from `sC2`. -/
def docC2 : XML :=
  match to_xml sC2 with
  | .ok d => d
  | .error _ => XML.el "" [] none []

/-- The needle-library placements of an output document. -/
def needleLibPlacements (doc : XML) : Option (List XML) :=
  (findTag "needlelibrary" doc.childrenOf).map XML.childrenOf

/-- **C2** as stated is false: with tip `(1,0,0)` and centre `(0,0,0)`
the emitted placement's offset is `centre − tip = (−1,0,0)`, not
`tip − centre = (1,0,0)`. -/
theorem needle_offset_counterexample :
    to_xml sC2 = .ok docC2 ∧
    ((needleLibPlacements docC2).getD []).map
        (fun nd => nd.attrsOf.lookup "offset")
      = [some (AVal.ns [0 - 1, 0 - 0, 0 - 0])] ∧
    AVal.ns [0 - 1, 0 - 0, 0 - 0] ≠ AVal.ns [1 - 0, 0 - 0, 0 - 0] := by
  refine ⟨rfl, rfl, ?_⟩
  intro h
  rw [AVal.ns.injEq] at h
  norm_num at h

theorem needle_library_offset_axis_witness :
    ∃ attrs,
      processNeedle sC2 (some (.list [.num 0, .num 0, .num 0])) none false
        emptyParts "n1" ndC2 =
        .ok { emptyParts with
              libNeedles := emptyParts.libNeedles ++ [XML.el "needle" attrs none
                [XML.el "parameters" [] none
                  (ndC2.parameters.map (fun p => XML.el "constant"
                    [("name", .s p.1), ("value", pyStrA (convert_parameter p.2))]
                    none []))]],
              l := emptyParts.l + 1 } ∧
      attrs.lookup "offset"
        = some (.ns (List.zipWith (fun t c => c - t) [1, 0, 0] [0, 0, 0])) ∧
      attrs.lookup "axis"
        = some (.ns (List.zipWith (fun e t => e - t) [2, 0, 0] [1, 0, 0])) := by
  exact needle_library_offset_axis sC2 (some (.list [.num 0, .num 0, .num 0]))
    none false emptyParts "n1" ndC2 "library" "np1"
    (some (.list [.num 1, .num 0, .num 0])) (some (.list [.num 2, .num 0, .num 0]))
    [1, 0, 0] [2, 0, 0] [0, 0, 0]
    (Or.inr rfl) rfl (by decide) (by decide) rfl rfl rfl rfl rfl

theorem map_range_get {α : Type} (d : α) :
    ∀ (l : List α), (List.range l.length).map (fun i => (l.get? i).getD d) = l
  | [] => rfl
  | a :: t => by
    rw [List.length_cons, List.range_succ_eq_map]
    simp only [List.map_cons, List.get?_cons_zero, Option.getD_some, List.map_map]
    congr 1
    have ih := map_range_get d t
    calc (List.range t.length).map ((fun i => ((a :: t).get? i).getD d) ∘ Nat.succ)
        = (List.range t.length).map (fun i => (t.get? i).getD d) := by
          apply List.map_congr_left; intro i _; rfl
      _ = t := ih

theorem pyZipN_get? (rows : List (List ℚ)) (m j : Nat)
    (hm : (rows.map List.length).min? = some m) (hj : j < m) :
    (pyZipN rows).get? j = some (rows.map (fun r => (r.get? j).getD 0)) := by
  unfold pyZipN
  rw [hm, List.get?_map, List.get?_range hj]
  rfl

theorem pyZipN_singleton (v : List ℚ) :
    pyZipN [v] = (List.range v.length).map (fun i => [(v.get? i).getD 0]) := rfl

theorem centroid_of_tips_centre (s : State) (tips : List (List ℚ))
    (tipVals : List (Option PValue))
    (hne : s.needles.isEmpty = false)
    (hpol : get_parameter s.parameters "CENTRE_LOCATION"
      = some (.str "centroid-of-tips"))
    (hvals : (List.range s.needles.length).mapM
      (fun i => get_needle_parameter s (.ord i) "NEEDLE_TIP_LOCATION") = .ok tipVals)
    (htips : tipVals.mapM (fun o => o.bind asVec) = some tips) :
    deriveCentre s = .ok (some (.list ((pyZipN tips).map
        (fun col => .num (col.sum / (s.needles.length : ℚ)))))) ∧
    (∀ j m, (tips.map List.length).min? = some m → j < m →
      ((pyZipN tips).map (fun col => col.sum / (s.needles.length : ℚ))).get? j
        = some ((tips.map (fun v => (v.get? j).getD 0)).sum
            / (s.needles.length : ℚ))) ∧
    (∀ v, tips = [v] → s.needles.length = 1 →
      (pyZipN tips).map (fun col => col.sum / (s.needles.length : ℚ)) = v) := by
  refine ⟨?_, ?_, ?_⟩
  · unfold deriveCentre
    rw [hpol]
    rw [if_neg (by decide)]
    rw [if_pos (by decide)]
    rw [if_pos (by simp [hne])]
    rw [hvals]
    simp only [Bind.bind, Except.bind]
    rw [htips]
  · intro j m hm hj
    rw [List.get?_map, pyZipN_get? tips m j hm hj]
    rfl
  · intro v hv hlen
    subst hv
    rw [pyZipN_singleton, hlen, List.map_map]
    have : ((fun col => col.sum / ((1 : Nat) : ℚ)) ∘ (fun i => [(v.get? i).getD (0:ℚ)]))
        = fun i => (v.get? i).getD 0 := by
      funext i
      simp
    rw [this]
    exact map_range_get 0 v

/-- A two-needle state with the centroid-of-tips centre policy. -/
def sC3 : State :=
  { needles :=
      [("n1", ⟨[("NEEDLE_TIP_LOCATION", (.list [.num 1, .num 2, .num 3], none))],
        "library:a", some "boundary"⟩),
       ("n2", ⟨[("NEEDLE_TIP_LOCATION", (.list [.num 3, .num 4, .num 5], none))],
        "library:b", some "boundary"⟩)],
    needle_order := [(0, "n1"), (1, "n2")],
    regions := [], regions_by_meaning := [],
    parameters := [("CENTRE_LOCATION", (.str "centroid-of-tips", none))],
    algorithms := [], definition := some "D" }

/-- A one-needle state with the centroid-of-tips centre policy. -/
def sC3b : State :=
  { needles :=
      [("n1", ⟨[("NEEDLE_TIP_LOCATION", (.list [.num 7, .num 8], none))],
        "library:a", some "boundary"⟩)],
    needle_order := [(0, "n1")],
    regions := [], regions_by_meaning := [],
    parameters := [("CENTRE_LOCATION", (.str "centroid-of-tips", none))],
    algorithms := [], definition := some "D" }

theorem centroid_of_tips_centre_witness :
    deriveCentre sC3 = .ok (some (.list ((pyZipN [[1, 2, 3], [3, 4, 5]]).map
        (fun col => .num (col.sum / (sC3.needles.length : ℚ)))))) ∧
    ((pyZipN [[1, 2, 3], [3, 4, 5]]).map
        (fun col => col.sum / (sC3.needles.length : ℚ))).get? 0
      = some ((([[1, 2, 3], [3, 4, 5]] : List (List ℚ)).map
          (fun v => (v.get? 0).getD 0)).sum / (sC3.needles.length : ℚ)) ∧
    (pyZipN [[7, 8]]).map
        (fun col => col.sum / (sC3b.needles.length : ℚ)) = [7, 8] := by
  have h := centroid_of_tips_centre sC3 [[1, 2, 3], [3, 4, 5]]
    [some (.list [.num 1, .num 2, .num 3]), some (.list [.num 3, .num 4, .num 5])]
    rfl rfl rfl rfl
  have hb := centroid_of_tips_centre sC3b [[7, 8]]
    [some (.list [.num 7, .num 8])] rfl rfl rfl rfl
  exact ⟨h.1, h.2.1 0 3 rfl (by decide), hb.2.2 [7, 8] rfl rfl⟩

/-- **C4** (amended): with no override parameters the lengthscales block
carries the preset selected by the truthiness of the high-resolution
parameter (`1.0/2.0/1.0` when truthy, `2.0/5.0/2.0` otherwise); a
supplied truthy near/far/zone field parameter replaces only its own
field; a supplied truthy needle-zone parameter only adds the
`needlezonefield` attribute; a supplied falsy (zero or empty) override
is ignored and the preset value stays. -/
theorem lengthscale_presets_and_overrides (s : State) :
    (get_parameter s.parameters "RESOLUTION_FIELD_NEAR" = none →
     get_parameter s.parameters "RESOLUTION_FIELD_FAR" = none →
     get_parameter s.parameters "RESOLUTION_FIELD_ZONE" = none →
     get_parameter s.parameters "RESOLUTION_FIELD_NEEDLE_ZONE" = none →
      lengthscalesAttrs s =
        (if truthyOpt (get_parameter s.parameters "RESOLUTION_HIGH") then
          [("nearfield", .s "1.0"), ("farfield", .s "2.0"),
           ("zonefield", .s "1.0"), ("vessels", .s "far")]
         else
          [("nearfield", .s "2.0"), ("farfield", .s "5.0"),
           ("zonefield", .s "2.0"), ("vessels", .s "far")])) ∧
    (∀ v, get_parameter s.parameters "RESOLUTION_FIELD_NEAR" = some v →
     truthy v = true →
     get_parameter s.parameters "RESOLUTION_FIELD_FAR" = none →
     get_parameter s.parameters "RESOLUTION_FIELD_ZONE" = none →
     get_parameter s.parameters "RESOLUTION_FIELD_NEEDLE_ZONE" = none →
      lengthscalesAttrs s =
        (if truthyOpt (get_parameter s.parameters "RESOLUTION_HIGH") then
          [("nearfield", pyStrA v), ("farfield", .s "2.0"),
           ("zonefield", .s "1.0"), ("vessels", .s "far")]
         else
          [("nearfield", pyStrA v), ("farfield", .s "5.0"),
           ("zonefield", .s "2.0"), ("vessels", .s "far")])) ∧
    (∀ v, get_parameter s.parameters "RESOLUTION_FIELD_FAR" = some v →
     truthy v = true →
     get_parameter s.parameters "RESOLUTION_FIELD_NEAR" = none →
     get_parameter s.parameters "RESOLUTION_FIELD_ZONE" = none →
     get_parameter s.parameters "RESOLUTION_FIELD_NEEDLE_ZONE" = none →
      lengthscalesAttrs s =
        (if truthyOpt (get_parameter s.parameters "RESOLUTION_HIGH") then
          [("nearfield", .s "1.0"), ("farfield", pyStrA v),
           ("zonefield", .s "1.0"), ("vessels", .s "far")]
         else
          [("nearfield", .s "2.0"), ("farfield", pyStrA v),
           ("zonefield", .s "2.0"), ("vessels", .s "far")])) ∧
    (∀ v, get_parameter s.parameters "RESOLUTION_FIELD_ZONE" = some v →
     truthy v = true →
     get_parameter s.parameters "RESOLUTION_FIELD_NEAR" = none →
     get_parameter s.parameters "RESOLUTION_FIELD_FAR" = none →
     get_parameter s.parameters "RESOLUTION_FIELD_NEEDLE_ZONE" = none →
      lengthscalesAttrs s =
        (if truthyOpt (get_parameter s.parameters "RESOLUTION_HIGH") then
          [("nearfield", .s "1.0"), ("farfield", .s "2.0"),
           ("zonefield", pyStrA v), ("vessels", .s "far")]
         else
          [("nearfield", .s "2.0"), ("farfield", .s "5.0"),
           ("zonefield", pyStrA v), ("vessels", .s "far")])) ∧
    (∀ v, get_parameter s.parameters "RESOLUTION_FIELD_NEEDLE_ZONE" = some v →
     truthy v = true →
     get_parameter s.parameters "RESOLUTION_FIELD_NEAR" = none →
     get_parameter s.parameters "RESOLUTION_FIELD_FAR" = none →
     get_parameter s.parameters "RESOLUTION_FIELD_ZONE" = none →
      lengthscalesAttrs s =
        (if truthyOpt (get_parameter s.parameters "RESOLUTION_HIGH") then
          [("nearfield", .s "1.0"), ("farfield", .s "2.0"),
           ("zonefield", .s "1.0"), ("vessels", .s "far")]
         else
          [("nearfield", .s "2.0"), ("farfield", .s "5.0"),
           ("zonefield", .s "2.0"), ("vessels", .s "far")])
        ++ [("needlezonefield", pyStrA v)]) ∧
    (∀ v, get_parameter s.parameters "RESOLUTION_FIELD_NEAR" = some v →
     truthy v = false →
     get_parameter s.parameters "RESOLUTION_FIELD_FAR" = none →
     get_parameter s.parameters "RESOLUTION_FIELD_ZONE" = none →
     get_parameter s.parameters "RESOLUTION_FIELD_NEEDLE_ZONE" = none →
      lengthscalesAttrs s =
        (if truthyOpt (get_parameter s.parameters "RESOLUTION_HIGH") then
          [("nearfield", .s "1.0"), ("farfield", .s "2.0"),
           ("zonefield", .s "1.0"), ("vessels", .s "far")]
         else
          [("nearfield", .s "2.0"), ("farfield", .s "5.0"),
           ("zonefield", .s "2.0"), ("vessels", .s "far")])) := by
  refine ⟨?_, ?_, ?_, ?_, ?_, ?_⟩
  · intro h1 h2 h3 h4
    by_cases hhi : truthyOpt (get_parameter s.parameters "RESOLUTION_HIGH") = true <;>
      simp [lengthscalesAttrs, lengthscale_settings, needlezonefield, pyStrA,
        h1, h2, h3, h4, hhi]
  · intro v hv htr h2 h3 h4
    by_cases hhi : truthyOpt (get_parameter s.parameters "RESOLUTION_HIGH") = true <;>
      simp [lengthscalesAttrs, lengthscale_settings, needlezonefield, pyStrA,
        hv, htr, h2, h3, h4, hhi]
  · intro v hv htr h1 h3 h4
    by_cases hhi : truthyOpt (get_parameter s.parameters "RESOLUTION_HIGH") = true <;>
      simp [lengthscalesAttrs, lengthscale_settings, needlezonefield, pyStrA,
        hv, htr, h1, h3, h4, hhi]
  · intro v hv htr h1 h2 h4
    by_cases hhi : truthyOpt (get_parameter s.parameters "RESOLUTION_HIGH") = true <;>
      simp [lengthscalesAttrs, lengthscale_settings, needlezonefield, pyStrA,
        hv, htr, h1, h2, h4, hhi]
  · intro v hv htr h1 h2 h3
    by_cases hhi : truthyOpt (get_parameter s.parameters "RESOLUTION_HIGH") = true <;>
      simp [lengthscalesAttrs, lengthscale_settings, needlezonefield, pyStrA,
        hv, htr, h1, h2, h3, hhi]
  · intro v hv htr h2 h3 h4
    by_cases hhi : truthyOpt (get_parameter s.parameters "RESOLUTION_HIGH") = true <;>
      simp [lengthscalesAttrs, lengthscale_settings, needlezonefield, pyStrA,
        hv, htr, h2, h3, h4, hhi]

/-- A state supplying a zero near-field override (and nothing else). -/
def sC4 : State :=
  { needles := [], needle_order := [], regions := [], regions_by_meaning := [],
    parameters := [("RESOLUTION_FIELD_NEAR", (.num 0, some "float"))],
    algorithms := [], definition := some "D" }

/-- **C4** as stated is false: an explicitly supplied near-field value
of `0` does not override the preset — the emitted `nearfield` stays at
the standard preset `2.0` instead of the supplied value. -/
theorem lengthscale_override_counterexample :
    get_parameter sC4.parameters "RESOLUTION_FIELD_NEAR" = some (.num 0) ∧
    (lengthscalesAttrs sC4).lookup "nearfield" = some (AVal.s "2.0") ∧
    some (AVal.s "2.0") ≠ some (pyStrA (.num 0)) := by
  refine ⟨rfl, rfl, by simp [pyStrA]⟩

/-- High-resolution preset state, no overrides. -/
def sC4hi : State := { sC4 with parameters := [("RESOLUTION_HIGH", (.bool true, none))] }

/-- Standard preset state, no overrides. -/
def sC4lo : State := { sC4 with parameters := [] }

/-- A truthy near-field override. -/
def sC4near : State :=
  { sC4 with parameters := [("RESOLUTION_FIELD_NEAR", (.num 2, some "float"))] }

theorem lengthscale_presets_and_overrides_witness :
    (lengthscalesAttrs sC4hi =
      (if truthyOpt (get_parameter sC4hi.parameters "RESOLUTION_HIGH") then
        [("nearfield", .s "1.0"), ("farfield", .s "2.0"),
         ("zonefield", .s "1.0"), ("vessels", .s "far")]
       else
        [("nearfield", .s "2.0"), ("farfield", .s "5.0"),
         ("zonefield", .s "2.0"), ("vessels", .s "far")])) ∧
    (lengthscalesAttrs sC4lo =
      (if truthyOpt (get_parameter sC4lo.parameters "RESOLUTION_HIGH") then
        [("nearfield", .s "1.0"), ("farfield", .s "2.0"),
         ("zonefield", .s "1.0"), ("vessels", .s "far")]
       else
        [("nearfield", .s "2.0"), ("farfield", .s "5.0"),
         ("zonefield", .s "2.0"), ("vessels", .s "far")])) ∧
    (lengthscalesAttrs sC4near =
      (if truthyOpt (get_parameter sC4near.parameters "RESOLUTION_HIGH") then
        [("nearfield", pyStrA (.num 2)), ("farfield", .s "2.0"),
         ("zonefield", .s "1.0"), ("vessels", .s "far")]
       else
        [("nearfield", pyStrA (.num 2)), ("farfield", .s "5.0"),
         ("zonefield", .s "2.0"), ("vessels", .s "far")])) ∧
    (lengthscalesAttrs sC4 =
      (if truthyOpt (get_parameter sC4.parameters "RESOLUTION_HIGH") then
        [("nearfield", .s "1.0"), ("farfield", .s "2.0"),
         ("zonefield", .s "1.0"), ("vessels", .s "far")]
       else
        [("nearfield", .s "2.0"), ("farfield", .s "5.0"),
         ("zonefield", .s "2.0"), ("vessels", .s "far")])) := by
  refine ⟨(lengthscale_presets_and_overrides sC4hi).1 rfl rfl rfl rfl,
          (lengthscale_presets_and_overrides sC4lo).1 rfl rfl rfl rfl,
          (lengthscale_presets_and_overrides sC4near).2.1 (.num 2) rfl rfl rfl rfl rfl,
          (lengthscale_presets_and_overrides sC4).2.2.2.2.2 (.num 0) rfl rfl rfl rfl rfl⟩

/-- **C5**: region classification for the mesher section: a zone-format
region is always a zone entry; a non-zone region with meaning organ is
an organ entry; otherwise a region with a vessels or bronchi group is a
vessel entry; otherwise no entry; and an emitted entry appears among
the mesher classification nodes. -/
theorem region_classification (idx : String) (r : Region) :
    (r.format = some "zone" →
      classifyRegion idx r = some (XML.el "zone" [("region", .s idx)] none [])) ∧
    (r.format ≠ some "zone" → r.meaning = some "organ" →
      classifyRegion idx r = some (XML.el "organ" [("region", .s idx)] none [])) ∧
    (r.format ≠ some "zone" → r.meaning ≠ some "organ" →
      (r.groups.contains "vessels" || r.groups.contains "bronchi") = true →
      classifyRegion idx r = some (XML.el "vessel" [("region", .s idx)] none [])) ∧
    (r.format ≠ some "zone" → r.meaning ≠ some "organ" →
      (r.groups.contains "vessels" || r.groups.contains "bronchi") = false →
      classifyRegion idx r = none) ∧
    (∀ s : State, (idx, r) ∈ s.regions → ∀ x, classifyRegion idx r = some x →
      x ∈ classificationNodes s) := by
  refine ⟨?_, ?_, ?_, ?_, ?_⟩
  · intro h; unfold classifyRegion; rw [if_pos h]
  · intro h1 h2; unfold classifyRegion; rw [if_neg h1, if_pos h2]
  · intro h1 h2 h3
    unfold classifyRegion; rw [if_neg h1, if_neg h2, if_pos h3]
  · intro h1 h2 h3
    unfold classifyRegion; rw [if_neg h1, if_neg h2, if_neg (by rw [h3]; exact Bool.false_ne_true)]
  · intro s hs x hx
    exact List.mem_filterMap.mpr ⟨(idx, r), hs, hx⟩

def rC5zone : Region := ⟨some "zone", some "organ", "r1.vtk", ["g"]⟩

def rC5organ : Region := ⟨some "surface", some "organ", "r2.vtk", ["g"]⟩

def rC5vessel : Region := ⟨some "surface", some "vein", "r3.vtk", ["vessels"]⟩

def rC5none : Region := ⟨some "surface", some "vein", "r4.vtk", ["other"]⟩

def sC5 : State :=
  { needles := [], needle_order := [],
    regions := [("r1", rC5zone)], regions_by_meaning := [],
    parameters := [], algorithms := [], definition := some "D" }

theorem region_classification_witness :
    classifyRegion "r1" rC5zone
      = some (XML.el "zone" [("region", .s "r1")] none []) ∧
    classifyRegion "r2" rC5organ
      = some (XML.el "organ" [("region", .s "r2")] none []) ∧
    classifyRegion "r3" rC5vessel
      = some (XML.el "vessel" [("region", .s "r3")] none []) ∧
    classifyRegion "r4" rC5none = none ∧
    XML.el "zone" [("region", .s "r1")] none [] ∈ classificationNodes sC5 := by
  refine ⟨(region_classification "r1" rC5zone).1 rfl,
          (region_classification "r2" rC5organ).2.1 (by decide) rfl,
          (region_classification "r3" rC5vessel).2.2.1 (by decide) (by decide) rfl,
          (region_classification "r4" rC5none).2.2.2.1 (by decide) (by decide) rfl,
          (region_classification "r1" rC5zone).2.2.2.2 sC5
            (List.mem_singleton.mpr rfl) _
            ((region_classification "r1" rC5zone).1 rfl)⟩

/-- A point-source needle with a non-library reference kind always
aborts the needle loop step with the unknown-point-source failure. -/
theorem processNeedle_point_source_bad {s : State}
    {centreLoc nzf : Option PValue} {nameRegions : Bool} {acc : NeedleParts}
    {ix : String} {nd : Needle}
    (hcls : nd.cls = some "point-sources")
    (hkind : (splitColon1 nd.file).1 ≠ "library") :
    processNeedle s centreLoc nzf nameRegions acc ix nd =
      .error (.unknownPointSource (splitColon1 nd.file).1) := by
  simp only [processNeedle, hcls]
  rw [if_neg (by decide)]
  rw [if_pos (by decide)]
  rw [if_neg (by simp [hkind])]

/-- The needle loop never succeeds while it contains a point-source
needle with a non-library reference kind. -/
theorem needleLoop_not_ok {s : State} {centreLoc nzf : Option PValue}
    {nameRegions : Bool} :
    ∀ (l : List (String × Needle)) (acc : NeedleParts),
    (∃ p ∈ l, p.2.cls = some "point-sources" ∧
      (splitColon1 p.2.file).1 ≠ "library") →
    ∀ parts, needleLoop s centreLoc nzf nameRegions l acc ≠ .ok parts
  | [], _, ⟨p, hp, _⟩, _ => absurd hp (List.not_mem_nil p)
  | (ix, nd) :: rest, acc, ⟨p, hp, hbad⟩, parts => by
    intro hok
    rw [needleLoop] at hok
    rcases List.mem_cons.mp hp with h | h
    · rw [h] at hbad
      rw [processNeedle_point_source_bad hbad.1 hbad.2] at hok
      simp [Bind.bind, Except.bind] at hok
    · cases hstep : processNeedle s centreLoc nzf nameRegions acc ix nd with
      | error e => rw [hstep] at hok; simp [Bind.bind, Except.bind] at hok
      | ok acc' =>
        rw [hstep] at hok
        simp only [Bind.bind, Except.bind] at hok
        exact needleLoop_not_ok rest acc' ⟨p, h, hbad⟩ parts hok

/-- **C6**: a point-source needle with a library reference emits a
point-source block whose `system` is the library locator (given the
required extensions parameter); any other reference kind aborts the
step with the unknown-point-source failure, and a compilation holding
such a needle never returns a document. -/
theorem point_source_reference_kind (s : State) (centreLoc nzf : Option PValue)
    (nameRegions : Bool) (acc : NeedleParts) (ix : String) (nd : Needle)
    (hcls : nd.cls = some "point-sources") :
    (∀ path exts items, splitColon1 nd.file = ("library", some path) →
      get_parameter s.parameters "CONSTANT_NEEDLE_EXTENSIONS" = some exts →
      pyEnum exts = some items →
      processNeedle s centreLoc nzf nameRegions acc ix nd =
        .ok { acc with pointSources := acc.pointSources ++
          [XML.el "pointsources" [("system", .s path)] none
            [XML.el "extensions" [] none (items.enum.map (fun p =>
              XML.el "extension"
                [("phase", .s (toString p.1)), ("length", pyStrA p.2)]
                none []))]] }) ∧
    (∀ kind rest, splitColon1 nd.file = (kind, rest) → kind ≠ "library" →
      processNeedle s centreLoc nzf nameRegions acc ix nd =
        .error (.unknownPointSource kind)) ∧
    ((∃ p ∈ s.needles, p.2.cls = some "point-sources" ∧
        (splitColon1 p.2.file).1 ≠ "library") →
      ∀ doc, to_xml s ≠ .ok doc) := by
  refine ⟨?_, ?_, ?_⟩
  · intro path exts items hloc hexts hitems
    simp only [processNeedle, hcls, hloc]
    rw [if_neg (by decide)]
    rw [if_pos (by decide)]
    rw [if_pos (by decide)]
    simp only [hexts, hitems, Bind.bind, Except.bind]
  · intro kind rest hloc hkind
    have h : processNeedle s centreLoc nzf nameRegions acc ix nd =
        .error (.unknownPointSource (splitColon1 nd.file).1) :=
      processNeedle_point_source_bad hcls (by rw [hloc]; exact hkind)
    rw [hloc] at h
    exact h
  · rintro hbad doc hok
    obtain ⟨cl, cA, ax, rg, inn, var, alg, parts, les,
      h1, h2, h3, h4, h5, h6, h7, h8, h9, hdoc⟩ := to_xml_ok_parts hok
    exact needleLoop_not_ok s.needles emptyParts hbad parts h8

/-- A point-source needle with a library reference. -/
def ndC6 : Needle := ⟨[], "library:ps-sys", some "point-sources"⟩

/-- A point-source needle with a surface reference. -/
def ndC6bad : Needle := ⟨[], "surface:mesh.vtp", some "point-sources"⟩

/-- A state carrying the required extensions parameter. -/
def sC6 : State :=
  { needles := [("n1", ndC6bad)], needle_order := [(0, "n1")],
    regions := [], regions_by_meaning := [],
    parameters := [("CONSTANT_NEEDLE_EXTENSIONS", (.list [.num 1, .num 2], none))],
    algorithms := [], definition := some "D" }

theorem point_source_reference_kind_witness :
    processNeedle sC6 none none false emptyParts "n1" ndC6 =
      .ok { emptyParts with pointSources := emptyParts.pointSources ++
        [XML.el "pointsources" [("system", .s "ps-sys")] none
          [XML.el "extensions" [] none
            (([PValue.num 1, PValue.num 2].enum.map (fun p =>
              XML.el "extension"
                [("phase", .s (toString p.1)), ("length", pyStrA p.2)]
                none [])))]] } ∧
    processNeedle sC6 none none false emptyParts "n1" ndC6bad =
      .error (.unknownPointSource "surface") := by
  have h := point_source_reference_kind sC6 none none false emptyParts "n1" ndC6 rfl
  have hb := point_source_reference_kind sC6 none none false emptyParts "n1" ndC6bad rfl
  exact ⟨h.1 "ps-sys" (.list [.num 1, .num 2]) [.num 1, .num 2] rfl rfl rfl,
         hb.2.1 "surface" (some "mesh.vtp") rfl (by decide)⟩

/-- A state with no needles whose centre policy names the needle-based
`centroid-of-tips`, otherwise valid. -/
def sC7 : State :=
  { needles := [], needle_order := [], regions := [], regions_by_meaning := [],
    parameters := [("CENTRE_LOCATION", (.str "centroid-of-tips", none)),
                   ("SETTING_LESION_FIELD", (.str "dead", none))],
    algorithms := [], definition := some "D" }

/-- The document compiled from `sC7`. -/
def docC7 : XML :=
  match to_xml sC7 with
  | .ok d => d
  | .error _ => XML.el "" [] none []

/-- **C7** is violated by the code: with no needles and the
`centroid-of-tips` policy the compilation does not fail with a
configuration error — the policy string survives to line 143, `zip`
iterates its characters, and a centre element with `x="c" y="e" z="n"`
is emitted. -/
theorem no_needles_centroid_emits_chars :
    to_xml sC7 = .ok docC7 ∧
    (findTag "geometry" docC7.childrenOf).map (fun g =>
        (findTag "centre" g.childrenOf).map XML.attrsOf)
      = some (some [("x", AVal.s "c"), ("y", AVal.s "e"), ("z", AVal.s "n")]) :=
  ⟨rfl, rfl⟩

/-- An input description whose single region has no input attribute. -/
def inpC8 : InputDef :=
  { definition := some "D", needles := none,
    regions := [{ id := "r1", name := some "organ", format := some "surface",
                  input := none, groups := ["g"] }],
    parameters := [], algorithms := [] }

/-- **C8** is violated by the code: a region whose input attribute is
absent makes `load_definition` fail with the `TypeError` of
`os.path.splitext(None)` at line 108 — the region is never stored. -/
theorem region_absent_input_load_fails :
    load_definition inpC8 [] = .error .typeError := rfl

/-- **C9**: compilation is deterministic — identical input descriptions
loaded into independent store instances compile to identical
documents. -/
theorem compilation_deterministic (inp1 inp2 : InputDef) (h : inp1 = inp2) :
    runCompilation inp1 = runCompilation inp2 := by rw [h]

/-- A complete, valid input description. -/
def inpC9 : InputDef :=
  { definition := some "D", needles := none,
    regions := [{ id := "r1", name := some "organ", format := some "surface",
                  input := some "organ.vtp", groups := ["g"] }],
    parameters :=
      [("CENTRE_LOCATION", (.list [.num 1, .num 2, .num 3], some "array(float)")),
       ("SETTING_LESION_FIELD", (.str "dead", none))],
    algorithms := [("res1", ⟨["x"], some "x + 1"⟩)] }

/-- The document compiled from `inpC9`. -/
def docC9 : XML :=
  match runCompilation inpC9 with
  | .ok d => d
  | .error _ => XML.el "" [] none []

theorem compilation_deterministic_witness :
    runCompilation inpC9 = runCompilation inpC9 ∧
    runCompilation inpC9 = .ok docC9 :=
  ⟨compilation_deterministic inpC9 inpC9 rfl, rfl⟩

theorem mem_insertSorted (a x : String) : ∀ (l : List String),
    (x ∈ insertSorted a l ↔ x = a ∨ x ∈ l)
  | [] => by simp [insertSorted]
  | b :: t => by
    unfold insertSorted
    split
    · simp only [List.mem_cons, mem_insertSorted a x t]
      tauto
    · simp only [List.mem_cons]

theorem mem_pySorted_aux (x : String) : ∀ (l acc : List String),
    (x ∈ l.foldl (fun acc a => insertSorted a acc) acc ↔ x ∈ acc ∨ x ∈ l)
  | [], acc => by simp
  | a :: t, acc => by
    simp only [List.foldl_cons]
    rw [mem_pySorted_aux x t (insertSorted a acc), mem_insertSorted]
    simp only [List.mem_cons]
    tauto

theorem mem_pySorted (x : String) (l : List String) :
    x ∈ pySorted l ↔ x ∈ l := by
  unfold pySorted
  rw [mem_pySorted_aux]
  simp

/-- **C10**: the denylist scan covers only the content text and the
result name, never argument names — an algorithm with a denylisted
argument name but clean content and result is accepted and emitted, the
argument name appearing verbatim in the comma-joined arguments
attribute and as an argument node. -/
theorem algorithm_arguments_not_scanned (result : String) (d : AlgDef)
    (a : String)
    (hclean : algClean result d = true)
    (hmem : a ∈ d.arguments)
    (hdirty : ∃ fn ∈ disallowed_functions, strIn fn a = true) :
    processAlgorithms [(result, d)] = .ok [mkAlgorithmElem result d] ∧
    (mkAlgorithmElem result d).attrsOf.lookup "arguments"
      = some (.s (joinWith "," d.arguments)) ∧
    ∃ argsNode,
      findTag "arguments" (mkAlgorithmElem result d).childrenOf = some argsNode ∧
      XML.el "argument" [("name", .s a)] none [] ∈ argsNode.childrenOf := by
  refine ⟨?_, rfl, ?_⟩
  · simp [processAlgorithms, hclean, Bind.bind, Except.bind]
  · refine ⟨XML.el "arguments" [] none ((pySorted d.arguments).map
      (fun a => XML.el "argument" [("name", .s a)] none [])), rfl, ?_⟩
    exact List.mem_map_of_mem _ ((mem_pySorted a d.arguments).mpr hmem)

/-- An algorithm whose only argument contains `fopen`. -/
def algC10 : AlgDef := ⟨["my_fopen_arg"], some "x + y"⟩

theorem algorithm_arguments_not_scanned_witness :
    processAlgorithms [("res1", algC10)] = .ok [mkAlgorithmElem "res1" algC10] ∧
    (mkAlgorithmElem "res1" algC10).attrsOf.lookup "arguments"
      = some (.s (joinWith "," algC10.arguments)) ∧
    ∃ argsNode,
      findTag "arguments" (mkAlgorithmElem "res1" algC10).childrenOf
        = some argsNode ∧
      XML.el "argument" [("name", .s "my_fopen_arg")] none []
        ∈ argsNode.childrenOf := by
  exact algorithm_arguments_not_scanned "res1" algC10 "my_fopen_arg"
    (by decide) (by decide) ⟨"fopen", by decide, by decide⟩

end ElmerLibNuma
